import Mathlib

/-!
Shallow embedding of the runtime orchestration core of the topix repository:
the headline store retention sweeps (`src/models/database.ts`), the plugin
manager fetch pipeline (`src/managers/plugin-manager.ts`), the cron scheduler
(`src/managers/scheduler.ts`), the credential vault (`src/managers/auth-manager.ts`)
and the config watcher (`src/utils/config-watcher.ts`).

Times are epoch milliseconds modelled as `Int`.  The SQLite `headlines` table is
modelled as a `List Headline` in rowid (insertion) order; `id` is the table's
primary key, so rows have pairwise distinct ids.
-/

namespace Topix

/-- A row of the `headlines` table (`Headline` in `src/models/types.ts`),
restricted to the fields the retention sweeps and the fetch pipeline read:
`id` (TEXT PRIMARY KEY), `plugin_id`, `title`, `pub_date` (epoch ms). -/
structure Headline where
  id : String
  pluginId : String
  title : String
  pubDate : Int
  deriving Repr, DecidableEq

/-- Model of `SELECT * FROM headlines WHERE plugin_id = ?` — the headlines owned by a
plugin, in table order. -/
def headlinesOf (db : List Headline) (pid : String) : List Headline :=
  db.filter (fun h => h.pluginId = pid)

/-- The comparison behind `ORDER BY pub_date DESC`: `a` sorts no later than `b`
when `b.pub_date ≤ a.pub_date`. -/
def pubDateDesc (a b : Headline) : Prop := b.pubDate ≤ a.pubDate

instance : DecidableRel pubDateDesc := fun a b => by
  unfold pubDateDesc; infer_instance

instance : IsTotal Headline pubDateDesc :=
  ⟨fun a b => le_total b.pubDate a.pubDate⟩

instance : IsTrans Headline pubDateDesc :=
  ⟨fun _ _ _ hab hbc => le_trans hbc hab⟩

/-- Model of `ORDER BY pub_date DESC` over a list of rows. -/
def sortByPubDateDesc (l : List Headline) : List Headline :=
  l.insertionSort pubDateDesc

/-- Model of `TopixDatabase.deleteOldHeadlinesByCount` (`src/models/database.ts` L257-280):
select the ids of the `keepCount` most recent headlines of the plugin
(`ORDER BY pub_date DESC LIMIT ?`); if none, delete every row of the plugin;
otherwise delete the plugin's rows whose id is not among the kept ids. -/
def deleteOldHeadlinesByCount (db : List Headline) (pid : String) (keepCount : Nat) :
    List Headline :=
  let keepIds := ((sortByPubDateDesc (headlinesOf db pid)).take keepCount).map (·.id)
  if keepIds.isEmpty then
    db.filter (fun h => h.pluginId ≠ pid)
  else
    db.filter (fun h => h.pluginId ≠ pid ∨ h.id ∈ keepIds)

/-- Model of `TopixDatabase.deleteOldHeadlinesByDuration` (`src/models/database.ts`
L285-294): `DELETE FROM headlines WHERE plugin_id = ? AND pub_date < ?` with the
cutoff `hours` hours before `now`. -/
def deleteOldHeadlinesByDuration (db : List Headline) (pid : String) (hours : Nat)
    (now : Int) : List Headline :=
  let cutoff := now - (hours : Int) * 3600000
  db.filter (fun h => ¬(h.pluginId = pid ∧ h.pubDate < cutoff))

/-- The `RetentionPolicy` variant from `src/models/types.ts`. -/
inductive RetentionPolicy where
  | count (value : Nat)
  | duration (hours : Nat)
  | unlimited
  deriving Repr, DecidableEq

/-- Model of `PluginManager.enforceRetentionPolicy` (`src/managers/plugin-manager.ts`
L382-402): dispatch on the policy tag; `unlimited` keeps everything. -/
def enforceRetentionPolicy (db : List Headline) (pid : String)
    (policy : RetentionPolicy) (now : Int) : List Headline :=
  match policy with
  | .count n => deleteOldHeadlinesByCount db pid n
  | .duration h => deleteOldHeadlinesByDuration db pid h now
  | .unlimited => db

/-! ### Facts about the count-based retention sweep -/

/-- The two SQL branches of `deleteOldHeadlinesByCount` agree: the empty-`keepIds`
fast path deletes every row of the plugin, which is what the generic filter does
with an empty id list. -/
lemma deleteOldHeadlinesByCount_eq_filter (db : List Headline) (pid : String)
    (keepCount : Nat) :
    deleteOldHeadlinesByCount db pid keepCount =
      db.filter (fun h => h.pluginId ≠ pid ∨
        h.id ∈ ((sortByPubDateDesc (headlinesOf db pid)).take keepCount).map (·.id)) := by
  unfold deleteOldHeadlinesByCount
  set keepIds := ((sortByPubDateDesc (headlinesOf db pid)).take keepCount).map (·.id) with hk
  by_cases he : keepIds.isEmpty
  · simp only [he, if_true]
    apply List.filter_congr
    intro h _
    rw [List.isEmpty_iff] at he
    simp [he]
  · simp [he]

/-- The plugin's surviving rows after the count sweep are exactly its original
rows whose id was selected for keeping. -/
lemma headlinesOf_deleteByCount (db : List Headline) (pid : String) (keepCount : Nat) :
    headlinesOf (deleteOldHeadlinesByCount db pid keepCount) pid =
      (headlinesOf db pid).filter (fun h =>
        h.id ∈ ((sortByPubDateDesc (headlinesOf db pid)).take keepCount).map (·.id)) := by
  rw [deleteOldHeadlinesByCount_eq_filter]
  unfold headlinesOf
  rw [List.filter_filter, List.filter_filter]
  apply List.filter_congr
  intro h _
  by_cases hp : h.pluginId = pid <;>
    by_cases hm : h.id ∈ ((sortByPubDateDesc (headlinesOf db pid)).take keepCount).map (·.id) <;>
    simp [hp, hm]

/-- Sorting a list whose ids are pairwise distinct and filtering it down to the
ids of its first `n` elements returns exactly those first `n` elements. -/
lemma filter_mem_take_ids (s : List Headline) (n : Nat)
    (hnd : (s.map (·.id)).Nodup) :
    s.filter (fun h => h.id ∈ (s.take n).map (·.id)) = s.take n := by
  have hsplit : s.filter (fun h => h.id ∈ (s.take n).map (·.id)) =
      (s.take n ++ s.drop n).filter (fun h => h.id ∈ (s.take n).map (·.id)) := by
    rw [List.take_append_drop]
  rw [hsplit, List.filter_append]
  have htake : (s.take n).filter (fun h => h.id ∈ (s.take n).map (·.id)) = s.take n := by
    rw [List.filter_eq_self]
    intro h hh
    simp only [decide_eq_true_eq]
    exact List.mem_map_of_mem _ hh
  have hdrop : (s.drop n).filter (fun h => h.id ∈ (s.take n).map (·.id)) = [] := by
    rw [List.filter_eq_nil_iff]
    intro h hh
    simp only [decide_eq_true_eq]
    intro hmem
    have hsplit : s.map (·.id) = (s.take n).map (·.id) ++ (s.drop n).map (·.id) := by
      rw [← List.map_append, List.take_append_drop]
    rw [hsplit, List.nodup_append] at hnd
    exact hnd.2.2 hmem (List.mem_map_of_mem _ hh)
  rw [htake, hdrop, List.append_nil]

/-- After `deleteOldHeadlinesByCount db pid N`, the plugin's rows are a
permutation of the first `N` entries of its rows sorted by `pub_date`
descending. -/
lemma headlinesOf_deleteByCount_perm (db : List Headline) (pid : String) (n : Nat)
    (hnd : ((headlinesOf db pid).map (·.id)).Nodup) :
    List.Perm (headlinesOf (deleteOldHeadlinesByCount db pid n) pid)
      ((sortByPubDateDesc (headlinesOf db pid)).take n) := by
  rw [headlinesOf_deleteByCount]
  have hperm : List.Perm (sortByPubDateDesc (headlinesOf db pid)) (headlinesOf db pid) :=
    List.perm_insertionSort _ _
  have hnds : ((sortByPubDateDesc (headlinesOf db pid)).map (·.id)).Nodup :=
    (hperm.map (·.id)).nodup_iff.mpr hnd
  have hstep := (hperm.symm.filter
    (fun h => h.id ∈ ((sortByPubDateDesc (headlinesOf db pid)).take n).map (·.id)))
  rw [filter_mem_take_ids _ n hnds] at hstep
  exact hstep

/-! ### String-keyed maps

`Map<string, _>` objects from the source (`this.plugins`, `this.tasks`, …)
are modelled as association lists with `Map.set`/`Map.get`/`Map.has`/`Map.delete`
semantics. -/

/-- Model of `Map.get`. -/
def mapLookup {α : Type} : List (String × α) → String → Option α
  | [], _ => none
  | (k', v) :: rest, k => if k' = k then some v else mapLookup rest k

/-- Model of `Map.set`: overwrite in place if the key exists, else append. -/
def mapInsert {α : Type} : List (String × α) → String → α → List (String × α)
  | [], k, v => [(k, v)]
  | (k', v') :: rest, k, v =>
    if k' = k then (k, v) :: rest else (k', v') :: mapInsert rest k v

/-- Model of `Map.delete`. -/
def mapErase {α : Type} : List (String × α) → String → List (String × α)
  | [], _ => []
  | (k', v') :: rest, k =>
    if k' = k then rest else (k', v') :: mapErase rest k

/-- Model of `Map.has`. -/
def mapContains {α : Type} (m : List (String × α)) (k : String) : Bool :=
  (mapLookup m k).isSome

lemma mapLookup_insert_self {α : Type} (m : List (String × α)) (k : String) (v : α) :
    mapLookup (mapInsert m k v) k = some v := by
  induction m with
  | nil => simp [mapInsert, mapLookup]
  | cons p rest ih =>
    obtain ⟨k', v'⟩ := p
    by_cases h : k' = k <;> simp [mapInsert, mapLookup, h, ih]

lemma mapLookup_insert_ne {α : Type} (m : List (String × α)) (k k' : String) (v : α)
    (h : k ≠ k') : mapLookup (mapInsert m k v) k' = mapLookup m k' := by
  induction m with
  | nil => simp [mapInsert, mapLookup, h]
  | cons p rest ih =>
    obtain ⟨k'', v''⟩ := p
    by_cases h2 : k'' = k
    · subst h2; simp [mapInsert, mapLookup, h]
    · simp only [mapInsert, if_neg h2]
      by_cases h3 : k'' = k' <;> simp [mapLookup, h3, ih]

/-! ### Plugin runtime model (`src/managers/plugin-manager.ts`)

A `TopixPlugin`'s `fetchHeadlines(context)` is an external asynchronous call;
the model records, for the fetch under consideration, the outcome that call
produces (`.ok` with the returned headlines, `.error` with the thrown message),
together with the plugin's identity fields and declared
`getRetentionPolicy()`. -/

instance {ε α : Type} [DecidableEq ε] [DecidableEq α] : DecidableEq (Except ε α) :=
  fun a b =>
    match a, b with
    | .error e1, .error e2 =>
      if h : e1 = e2 then .isTrue (congrArg Except.error h)
      else .isFalse (fun hc => h (Except.error.inj hc))
    | .error _, .ok _ => .isFalse (fun hc => Except.noConfusion hc)
    | .ok _, .error _ => .isFalse (fun hc => Except.noConfusion hc)
    | .ok v1, .ok v2 =>
      if h : v1 = v2 then .isTrue (congrArg Except.ok h)
      else .isFalse (fun hc => h (Except.ok.inj hc))

structure TopixPlugin where
  id : String
  name : String
  fetchResult : Except String (List Headline)
  retention : RetentionPolicy
  deriving Repr, DecidableEq

/-- Plugin runtime configuration (`PluginConfig` in `src/models/types.ts`),
restricted to the fields the fetch pipeline and scheduler read. -/
structure PluginConfig where
  pluginId : String
  enabled : Bool
  schedule : String
  deriving Repr, DecidableEq

/-- A run-state record written by `TopixDatabase.updatePluginRun`:
the plugin id and the error message, if any. -/
structure RunRecord where
  pluginId : String
  error : Option String
  deriving Repr, DecidableEq

/-- The state a `PluginManager` operates on: the plugin registry
(`this.plugins : Map<string, TopixPlugin>`), the runtime configurations read
through the `ConfigManager`, the `headlines` table, and the run-state records
written so far.  Note there is no per-plugin in-flight component: neither
`PluginManager` nor `Scheduler` declares one. -/
structure ManagerState where
  plugins : List (String × TopixPlugin)
  configs : List (String × PluginConfig)
  db : List Headline
  runs : List RunRecord
  deriving Repr, DecidableEq

/-- Errors thrown by `PluginManager.fetchFromPlugin`. -/
inductive FetchError where
  | notFound (pluginId : String)
  | notEnabled (pluginId : String)
  | execError (msg : String)
  deriving Repr, DecidableEq

/-- Model of `PluginManager.fetchFromPlugin` (`src/managers/plugin-manager.ts` L407-455):
throw `not found` when the registry lacks the id; throw `not enabled` when the
runtime config is absent or disabled; otherwise await `plugin.fetchHeadlines`,
insert every returned headline, apply the plugin's retention policy, record the
run, and return the headlines.  A fetch failure records the error message and
propagates. -/
def fetchFromPlugin (st : ManagerState) (pid : String) (now : Int) :
    Except FetchError (List Headline) × ManagerState :=
  match mapLookup st.plugins pid with
  | none => (.error (.notFound pid), st)
  | some plugin =>
    match mapLookup st.configs pid with
    | none => (.error (.notEnabled pid), st)
    | some cfg =>
      if cfg.enabled = false then (.error (.notEnabled pid), st)
      else
        match plugin.fetchResult with
        | .error msg =>
          (.error (.execError msg), { st with runs := st.runs ++ [⟨pid, some msg⟩] })
        | .ok hs =>
          let db1 := st.db ++ hs
          let db2 := enforceRetentionPolicy db1 pid plugin.retention now
          (.ok hs, { st with db := db2, runs := st.runs ++ [⟨pid, none⟩] })

/-- Model of `PluginManager.getEnabledPlugins` (L309-316): the loaded plugins whose id
appears among the enabled runtime configurations. -/
def getEnabledPlugins (st : ManagerState) : List TopixPlugin :=
  let enabledIds := ((st.configs.map (·.2)).filter (·.enabled)).map (·.pluginId)
  (st.plugins.map (·.2)).filter (fun pl => pl.id ∈ enabledIds)

/-- One step of the `fetchFromAllPlugins` loop body: run the guardless
`fetchFromPlugin` on the current state and record the plugin's entry. -/
def fetchAllStep (now : Int) (acc : List (String × List Headline) × ManagerState)
    (p : TopixPlugin) : List (String × List Headline) × ManagerState :=
  match (fetchFromPlugin acc.2 p.id now).1 with
  | .ok hs => (mapInsert acc.1 p.id hs, (fetchFromPlugin acc.2 p.id now).2)
  | .error _ => (mapInsert acc.1 p.id [], (fetchFromPlugin acc.2 p.id now).2)

/-- Model of `PluginManager.fetchFromAllPlugins` (L460-484): iterate the enabled plugins,
and for each one record its own fetch outcome in the result map — the headlines
on success, `[]` when the fetch threw (the `catch` branch) — continuing with the
remaining plugins either way. -/
def fetchFromAllPlugins (st : ManagerState) (now : Int) :
    List (String × List Headline) × ManagerState :=
  (getEnabledPlugins st).foldl (fetchAllStep now) ([], st)

/-- Full specification of the count sweep: the surviving rows of the plugin
number `min n total`, come from the original rows, and dominate every deleted
row by publication time. -/
lemma deleteByCount_spec (db : List Headline) (pid : String) (n : Nat)
    (hnd : ((headlinesOf db pid).map (·.id)).Nodup) :
    (headlinesOf (deleteOldHeadlinesByCount db pid n) pid).length =
        min n (headlinesOf db pid).length ∧
    (∀ h ∈ headlinesOf (deleteOldHeadlinesByCount db pid n) pid, h ∈ headlinesOf db pid) ∧
    (∀ h ∈ headlinesOf (deleteOldHeadlinesByCount db pid n) pid,
      ∀ h' ∈ headlinesOf db pid,
        h' ∉ headlinesOf (deleteOldHeadlinesByCount db pid n) pid →
        h'.pubDate ≤ h.pubDate) := by
  have hperm := headlinesOf_deleteByCount_perm db pid n hnd
  have hsort : List.Perm (sortByPubDateDesc (headlinesOf db pid)) (headlinesOf db pid) :=
    List.perm_insertionSort _ _
  refine ⟨?_, ?_, ?_⟩
  · rw [hperm.length_eq, List.length_take, hsort.length_eq]
  · intro h hh
    have ht : h ∈ (sortByPubDateDesc (headlinesOf db pid)).take n := hperm.mem_iff.mp hh
    exact hsort.subset (List.take_subset _ _ ht)
  · intro h hh h' hh' hnot
    have ht : h ∈ (sortByPubDateDesc (headlinesOf db pid)).take n := hperm.mem_iff.mp hh
    have hs' : h' ∈ sortByPubDateDesc (headlinesOf db pid) := hsort.symm.subset hh'
    have hd' : h' ∈ (sortByPubDateDesc (headlinesOf db pid)).drop n := by
      have hsplit := List.take_append_drop n (sortByPubDateDesc (headlinesOf db pid))
      rw [← hsplit] at hs'
      rcases List.mem_append.mp hs' with hcase | hcase
      · exact absurd (hperm.mem_iff.mpr hcase) hnot
      · exact hcase
    exact (List.sorted_insertionSort pubDateDesc (headlinesOf db pid)).rel_of_mem_take_of_mem_drop
      ht hd'

/-- C2: For every plugin whose retention policy is `count(N)`, after a
successful `fetchFromPlugin` the number of stored headlines owned by the plugin
is at most `N` — exactly `min N total` — and the retained rows are drawn from
the post-insert rows and are the most recent of them by publication time: every
deleted row's `pub_date` is at most every retained row's. -/
theorem fetch_count_retention (st : ManagerState) (pid : String) (now : Int)
    (plugin : TopixPlugin) (cfg : PluginConfig) (n : Nat) (hs : List Headline)
    (hpl : mapLookup st.plugins pid = some plugin)
    (hcfg : mapLookup st.configs pid = some cfg)
    (hen : cfg.enabled = true)
    (hret : plugin.retention = .count n)
    (hfetch : plugin.fetchResult = .ok hs)
    (hnd : ((headlinesOf (st.db ++ hs) pid).map (·.id)).Nodup) :
    (headlinesOf (fetchFromPlugin st pid now).2.db pid).length ≤ n ∧
    (headlinesOf (fetchFromPlugin st pid now).2.db pid).length =
        min n (headlinesOf (st.db ++ hs) pid).length ∧
    (∀ h ∈ headlinesOf (fetchFromPlugin st pid now).2.db pid,
      h ∈ headlinesOf (st.db ++ hs) pid) ∧
    (∀ h ∈ headlinesOf (fetchFromPlugin st pid now).2.db pid,
      ∀ h' ∈ headlinesOf (st.db ++ hs) pid,
        h' ∉ headlinesOf (fetchFromPlugin st pid now).2.db pid →
        h'.pubDate ≤ h.pubDate) := by
  have hdb : (fetchFromPlugin st pid now).2.db =
      deleteOldHeadlinesByCount (st.db ++ hs) pid n := by
    simp [fetchFromPlugin, hpl, hcfg, hen, hfetch, enforceRetentionPolicy, hret]
  rw [hdb]
  obtain ⟨hlen, hmem, hdom⟩ := deleteByCount_spec (st.db ++ hs) pid n hnd
  exact ⟨hlen ▸ min_le_left _ _, hlen, hmem, hdom⟩

/-- C9: For every plugin whose retention policy is `duration(H)`, after a
successful `fetchFromPlugin` no stored headline owned by the plugin has a
publication time older than `H` hours before `now`. -/
theorem fetch_duration_retention (st : ManagerState) (pid : String) (now : Int)
    (plugin : TopixPlugin) (cfg : PluginConfig) (hours : Nat) (hs : List Headline)
    (hpl : mapLookup st.plugins pid = some plugin)
    (hcfg : mapLookup st.configs pid = some cfg)
    (hen : cfg.enabled = true)
    (hret : plugin.retention = .duration hours)
    (hfetch : plugin.fetchResult = .ok hs) :
    ∀ h ∈ headlinesOf (fetchFromPlugin st pid now).2.db pid,
      now - (hours : Int) * 3600000 ≤ h.pubDate := by
  have hdb : (fetchFromPlugin st pid now).2.db =
      deleteOldHeadlinesByDuration (st.db ++ hs) pid hours now := by
    simp [fetchFromPlugin, hpl, hcfg, hen, hfetch, enforceRetentionPolicy, hret]
  rw [hdb]
  intro h hh
  unfold headlinesOf deleteOldHeadlinesByDuration at hh
  rw [List.mem_filter] at hh
  obtain ⟨hh1, hh2⟩ := hh
  rw [List.mem_filter] at hh1
  have hprop := of_decide_eq_true hh1.2
  have hpid := of_decide_eq_true hh2
  push_neg at hprop
  exact hprop hpid

/-- C5: `fetchFromPlugin` on an unknown plugin id, or on one whose runtime
configuration is absent or disabled, fails with a distinguishable error —
`notFound` exactly when the registry lacks the id, `notEnabled` otherwise — and
leaves the whole manager state (in particular the headline store) unchanged. -/
theorem fetch_precondition_errors (st : ManagerState) (pid : String) (now : Int)
    (h : mapLookup st.plugins pid = none ∨
         ∀ cfg, mapLookup st.configs pid = some cfg → cfg.enabled = false) :
    ∃ e, fetchFromPlugin st pid now = (.error e, st) ∧
      (mapLookup st.plugins pid = none → e = .notFound pid) ∧
      (mapLookup st.plugins pid ≠ none → e = .notEnabled pid) ∧
      FetchError.notFound pid ≠ FetchError.notEnabled pid := by
  cases hpl : mapLookup st.plugins pid with
  | none =>
    exact ⟨.notFound pid, by simp [fetchFromPlugin, hpl], fun _ => rfl,
      by simp [hpl], by simp⟩
  | some plugin =>
    rcases h with hnone | hcfg
    · rw [hpl] at hnone; cases hnone
    · refine ⟨.notEnabled pid, ?_, by simp [hpl], fun _ => rfl, by simp⟩
      cases hc : mapLookup st.configs pid with
      | none => simp [fetchFromPlugin, hpl, hc]
      | some cfg => simp [fetchFromPlugin, hpl, hc, hcfg cfg hc]

/-! ### Facts for the fetch-all batch -/

lemma mapLookup_eq_none_iff {α : Type} (m : List (String × α)) (k : String) :
    mapLookup m k = none ↔ k ∉ m.map (·.1) := by
  induction m with
  | nil => simp [mapLookup]
  | cons p rest ih =>
    obtain ⟨k', v'⟩ := p
    by_cases h : k' = k
    · subst h; simp [mapLookup]
    · simp [mapLookup, h, ih, Ne.symm h]

lemma mapInsert_fresh {α : Type} (m : List (String × α)) (k : String) (v : α)
    (h : mapLookup m k = none) : mapInsert m k v = m ++ [(k, v)] := by
  induction m with
  | nil => simp [mapInsert]
  | cons p rest ih =>
    obtain ⟨k', v'⟩ := p
    by_cases h2 : k' = k
    · subst h2; simp [mapLookup] at h
    · simp only [mapInsert, if_neg h2, List.cons_append, List.cons.injEq, true_and]
      exact ih (by simpa [mapLookup, h2] using h)

/-- The function `fetchFromPlugin` only writes the headline table and the run-state: the
plugin registry and the runtime configurations are untouched. -/
lemma fetchFromPlugin_preserves (st : ManagerState) (pid : String) (now : Int) :
    (fetchFromPlugin st pid now).2.plugins = st.plugins ∧
    (fetchFromPlugin st pid now).2.configs = st.configs := by
  unfold fetchFromPlugin
  cases mapLookup st.plugins pid with
  | none => exact ⟨rfl, rfl⟩
  | some plugin =>
    cases mapLookup st.configs pid with
    | none => exact ⟨rfl, rfl⟩
    | some cfg =>
      by_cases he : cfg.enabled = false
      · simp [he]
      · cases hres : plugin.fetchResult <;> simp [he, hres]

/-- The value (success with which headlines, or which error) returned by
`fetchFromPlugin` depends only on the registry and the configurations, not on
the headline table or run-state. -/
lemma fetchFromPlugin_result_congr (st st' : ManagerState) (pid : String) (now : Int)
    (hp : st'.plugins = st.plugins) (hc : st'.configs = st.configs) :
    (fetchFromPlugin st' pid now).1 = (fetchFromPlugin st pid now).1 := by
  unfold fetchFromPlugin
  rw [hp, hc]
  cases mapLookup st.plugins pid with
  | none => rfl
  | some plugin =>
    cases mapLookup st.configs pid with
    | none => rfl
    | some cfg =>
      by_cases he : cfg.enabled = false
      · simp [he]
      · cases hres : plugin.fetchResult <;> simp [he, hres]

/-- The entry `fetchFromAllPlugins` records for a plugin: the returned
headlines on success, `[]` when its fetch threw (the `catch` branch of the
loop, `src/managers/plugin-manager.ts` L470-473). -/
def fetchOutcome (st : ManagerState) (pid : String) (now : Int) : List Headline :=
  match (fetchFromPlugin st pid now).1 with
  | .ok hs => hs
  | .error _ => []

lemma fetchAllStep_map_fst (now : Int) (acc : List (String × List Headline))
    (st : ManagerState) (p : TopixPlugin) (hfresh : mapLookup acc p.id = none) :
    (fetchAllStep now (acc, st) p).1.map (·.1) = acc.map (·.1) ++ [p.id] := by
  unfold fetchAllStep
  cases hres : (fetchFromPlugin st p.id now).1 <;>
    simp [hres, mapInsert_fresh _ _ _ hfresh]

/-- Invariant of the `fetchFromAllPlugins` fold: each remaining plugin ends up
with its own outcome recorded, computed from the original registry and
configurations, and already-recorded entries are never overwritten. -/
lemma fetchAll_fold_spec (st0 : ManagerState) (now : Int) :
    ∀ (ps : List TopixPlugin) (acc : List (String × List Headline)) (st : ManagerState),
      st.plugins = st0.plugins → st.configs = st0.configs →
      (acc.map (·.1) ++ ps.map (·.id)).Nodup →
      (ps.foldl (fetchAllStep now) (acc, st)).1.map (·.1) =
          acc.map (·.1) ++ ps.map (·.id) ∧
      (∀ q ∈ ps, mapLookup (ps.foldl (fetchAllStep now) (acc, st)).1 q.id =
          some (fetchOutcome st0 q.id now)) ∧
      (∀ k ∈ acc.map (·.1), mapLookup (ps.foldl (fetchAllStep now) (acc, st)).1 k =
          mapLookup acc k) := by
  intro ps
  induction ps with
  | nil =>
    intro acc st _ _ _
    exact ⟨by simp, by simp, fun k _ => rfl⟩
  | cons p ps ih =>
    intro acc st hp hc hnd
    have hfresh : mapLookup acc p.id = none := by
      rw [mapLookup_eq_none_iff]
      intro hmem
      have := (List.nodup_append.mp hnd).2.2
      exact this hmem (by simp)
    have hout : (fetchAllStep now (acc, st) p).1 =
        mapInsert acc p.id (fetchOutcome st0 p.id now) := by
      unfold fetchAllStep fetchOutcome
      rw [fetchFromPlugin_result_congr st0 st p.id now hp hc]
      cases hres : (fetchFromPlugin st0 p.id now).1 <;> simp [hres]
    have hstate : (fetchAllStep now (acc, st) p).2 = (fetchFromPlugin st p.id now).2 := by
      unfold fetchAllStep
      cases hres : (fetchFromPlugin st p.id now).1 <;> simp [hres]
    have hp' : (fetchAllStep now (acc, st) p).2.plugins = st0.plugins := by
      rw [hstate, (fetchFromPlugin_preserves st p.id now).1, hp]
    have hc' : (fetchAllStep now (acc, st) p).2.configs = st0.configs := by
      rw [hstate, (fetchFromPlugin_preserves st p.id now).2, hc]
    have hacc1 : (fetchAllStep now (acc, st) p).1 =
        acc ++ [(p.id, fetchOutcome st0 p.id now)] := by
      rw [hout, mapInsert_fresh _ _ _ hfresh]
    have hnd' : ((fetchAllStep now (acc, st) p).1.map (·.1) ++ ps.map (·.id)).Nodup := by
      rw [hacc1]
      simpa using hnd
    have hfold : (p :: ps).foldl (fetchAllStep now) (acc, st) =
        ps.foldl (fetchAllStep now) (fetchAllStep now (acc, st) p) := by
      simp [List.foldl_cons]
    obtain ⟨ihmap, ihrec, ihpres⟩ :=
      ih (fetchAllStep now (acc, st) p).1 (fetchAllStep now (acc, st) p).2 hp' hc' hnd'
    rw [Prod.mk.eta] at ihmap ihrec ihpres
    rw [hfold]
    refine ⟨?_, ?_, ?_⟩
    · rw [ihmap, hacc1]; simp
    · intro q hq
      rcases List.mem_cons.mp hq with hq | hq
      · rw [hq]
        have hkey : p.id ∈ (fetchAllStep now (acc, st) p).1.map (·.1) := by
          rw [hacc1]; simp
        rw [ihpres p.id hkey, hout, mapLookup_insert_self]
      · exact ihrec q hq
    · intro k hk
      have hkey : k ∈ (fetchAllStep now (acc, st) p).1.map (·.1) := by
        rw [hacc1]; simp [hk]
      rw [ihpres k hkey, hout]
      have hkne : p.id ≠ k := by
        intro hEq
        subst hEq
        exact (mapLookup_eq_none_iff acc p.id).mp hfresh hk
      exact mapLookup_insert_ne _ _ _ _ hkne

/-- C8: `fetchFromAllPlugins` produces one result entry per enabled plugin — the
result keys are exactly the enabled plugins' ids, in order — and each entry is
that plugin's own outcome (its headlines on success, `[]` on failure), so one
plugin's failure neither aborts the batch nor disturbs any other plugin's
entry. -/
theorem fetchAll_records_each (st : ManagerState) (now : Int)
    (hnd : ((getEnabledPlugins st).map (·.id)).Nodup) :
    (fetchFromAllPlugins st now).1.map (·.1) = (getEnabledPlugins st).map (·.id) ∧
    ∀ p ∈ getEnabledPlugins st,
      mapLookup (fetchFromAllPlugins st now).1 p.id = some (fetchOutcome st p.id now) := by
  obtain ⟨hmap, hrec, _⟩ :=
    fetchAll_fold_spec st now (getEnabledPlugins st) [] st rfl rfl (by simpa using hnd)
  exact ⟨by simpa using hmap, hrec⟩

/-! ### Concrete scenarios for the fetch-pipeline theorems -/

/-- Headlines returned by the example plugin's fetch. -/
def c2hs : List Headline := [⟨"h5", "alpha", "t5", 500⟩, ⟨"h6", "alpha", "t6", 600⟩]

/-- A plugin with retention `count(3)` whose fetch returns `c2hs`. -/
def c2plugin : TopixPlugin :=
  { id := "alpha", name := "Alpha", fetchResult := .ok c2hs, retention := .count 3 }

/-- An enabled runtime configuration for the example plugin. -/
def c2cfg : PluginConfig := { pluginId := "alpha", enabled := true, schedule := "*/5 * * * *" }

/-- A manager state holding four stored headlines of the example plugin. -/
def c2st : ManagerState :=
  { plugins := [("alpha", c2plugin)], configs := [("alpha", c2cfg)],
    db := [⟨"h1", "alpha", "t1", 100⟩, ⟨"h2", "alpha", "t2", 200⟩,
           ⟨"h3", "alpha", "t3", 300⟩, ⟨"h4", "alpha", "t4", 400⟩],
    runs := [] }

/-- Witness for `fetch_count_retention`: its hypotheses are satisfiable, at a
state with four stored headlines and a fetch adding two under `count(3)`. -/
theorem fetch_count_retention_witness :
    (mapLookup c2st.plugins "alpha" = some c2plugin ∧
     mapLookup c2st.configs "alpha" = some c2cfg ∧
     c2cfg.enabled = true ∧
     c2plugin.retention = .count 3 ∧
     c2plugin.fetchResult = .ok c2hs ∧
     ((headlinesOf (c2st.db ++ c2hs) "alpha").map (·.id)).Nodup) ∧
    (headlinesOf (fetchFromPlugin c2st "alpha" 0).2.db "alpha").length ≤ 3 :=
  ⟨⟨by decide, by decide, rfl, rfl, rfl, by decide⟩,
   (fetch_count_retention c2st "alpha" 0 c2plugin c2cfg 3 c2hs
     (by decide) (by decide) rfl rfl rfl (by decide)).1⟩

/-- A plugin with retention `duration(24)` whose fetch returns one headline. -/
def c9plugin : TopixPlugin :=
  { id := "beta", name := "Beta",
    fetchResult := .ok [⟨"b3", "beta", "fresh", 90000000⟩], retention := .duration 24 }

/-- A manager state with one stale and one fresh stored headline of `beta`. -/
def c9st : ManagerState :=
  { plugins := [("beta", c9plugin)],
    configs := [("beta", { pluginId := "beta", enabled := true, schedule := "0 * * * *" })],
    db := [⟨"b1", "beta", "stale", 1000⟩, ⟨"b2", "beta", "recent", 80000000⟩],
    runs := [] }

/-- Witness for `fetch_duration_retention`: its hypotheses are satisfiable, at a
state holding a headline older than the 24-hour cutoff. -/
theorem fetch_duration_retention_witness :
    (mapLookup c9st.plugins "beta" = some c9plugin ∧
     c9plugin.retention = .duration 24 ∧
     c9plugin.fetchResult = .ok [⟨"b3", "beta", "fresh", 90000000⟩]) ∧
    ∀ h ∈ headlinesOf (fetchFromPlugin c9st "beta" 100000000).2.db "beta",
      (100000000 : Int) - (24 : Nat) * 3600000 ≤ h.pubDate :=
  ⟨⟨by decide, rfl, rfl⟩,
   fetch_duration_retention c9st "beta" 100000000 c9plugin
     { pluginId := "beta", enabled := true, schedule := "0 * * * *" } 24
     [⟨"b3", "beta", "fresh", 90000000⟩] (by decide) (by decide) rfl rfl rfl⟩

/-- A loaded but disabled plugin. -/
def c5plugin : TopixPlugin :=
  { id := "gamma", name := "Gamma", fetchResult := .ok [], retention := .unlimited }

/-- A manager state where `gamma` is loaded but its configuration is disabled. -/
def c5st : ManagerState :=
  { plugins := [("gamma", c5plugin)],
    configs := [("gamma", { pluginId := "gamma", enabled := false, schedule := "* * * * *" })],
    db := [⟨"g1", "gamma", "old", 5⟩], runs := [] }

/-- Witness for `fetch_precondition_errors`: at a state where `gamma` is loaded
but disabled, the fetch fails with the `not enabled` error and the state — in
particular the headline store — is unchanged. -/
theorem fetch_precondition_errors_witness :
    (∀ cfg, mapLookup c5st.configs "gamma" = some cfg → cfg.enabled = false) ∧
    fetchFromPlugin c5st "gamma" 0 = (.error (.notEnabled "gamma"), c5st) := by
  have hpre : ∀ cfg, mapLookup c5st.configs "gamma" = some cfg → cfg.enabled = false := by
    intro cfg hcfg
    have : cfg = { pluginId := "gamma", enabled := false, schedule := "* * * * *" } := by
      simpa [c5st, mapLookup] using hcfg.symm
    rw [this]
  refine ⟨hpre, ?_⟩
  obtain ⟨e, he, _, hne, _⟩ := fetch_precondition_errors c5st "gamma" 0 (Or.inr hpre)
  rw [hne (by decide)] at he
  exact he

/-- An enabled plugin whose fetch succeeds with one headline. -/
def c8p1 : TopixPlugin :=
  { id := "p1", name := "P1", fetchResult := .ok [⟨"x1", "p1", "ok", 10⟩],
    retention := .unlimited }

/-- An enabled plugin whose fetch throws. -/
def c8p2 : TopixPlugin :=
  { id := "p2", name := "P2", fetchResult := .error "network down",
    retention := .unlimited }

/-- A manager state with two enabled plugins, the second of which fails. -/
def c8st : ManagerState :=
  { plugins := [("p1", c8p1), ("p2", c8p2)],
    configs := [("p1", { pluginId := "p1", enabled := true, schedule := "* * * * *" }),
                ("p2", { pluginId := "p2", enabled := true, schedule := "* * * * *" })],
    db := [], runs := [] }

/-- Witness for `fetchAll_records_each`: with two enabled plugins where the
second one's fetch throws, the batch still records both — the first with its
headlines, the failing one with `[]`. -/
theorem fetchAll_records_each_witness :
    ((getEnabledPlugins c8st).map (·.id)).Nodup ∧
    (fetchFromAllPlugins c8st 0).1.map (·.1) = ["p1", "p2"] ∧
    mapLookup (fetchFromAllPlugins c8st 0).1 "p1" = some [⟨"x1", "p1", "ok", 10⟩] ∧
    mapLookup (fetchFromAllPlugins c8st 0).1 "p2" = some [] := by
  obtain ⟨hmap, hrec⟩ := fetchAll_records_each c8st 0 (by decide)
  refine ⟨by decide, hmap.trans (by decide), ?_, ?_⟩
  · exact (hrec c8p1 (by decide)).trans (by decide)
  · exact (hrec c8p2 (by decide)).trans (by decide)

/-! ### Plugin discovery (`PluginManager.loadBuiltInPlugins` / `loadUserPlugins`) -/

/-- A candidate plugin module found in a plugins directory: whether its default
export passes `isValidPlugin`, and the exported plugin object. -/
structure PluginFile where
  valid : Bool
  plugin : TopixPlugin
  deriving Repr, DecidableEq

/-- Model of the loop body of `PluginManager.loadBuiltInPlugins`
(`src/managers/plugin-manager.ts` L86-130): an invalid candidate is skipped
(warned only on a verbose manager, not modelled here); a valid one is
registered under its id (a `Map.set`, so a later built-in with the same id
would overwrite). -/
def loadBuiltInPlugins (registry : List (String × TopixPlugin)) (files : List PluginFile) :
    List (String × TopixPlugin) :=
  files.foldl
    (fun reg f => if f.valid then mapInsert reg f.plugin.id f.plugin else reg)
    registry

/-- One step of the `loadUserPlugins` loop (L145-178): skip invalid candidates;
skip any candidate whose id is already registered
(`this.plugins.has(plugin.id)`), emitting the conflict warning only when the
manager was constructed verbose (`if (this.verbose)` at L165); otherwise
register it. -/
def loadUserStep (verbose : Bool) (acc : List (String × TopixPlugin) × List String)
    (f : PluginFile) : List (String × TopixPlugin) × List String :=
  if f.valid = false then acc
  else if mapContains acc.1 f.plugin.id then
    (acc.1, if verbose then acc.2 ++ ["conflict:" ++ f.plugin.id] else acc.2)
  else (mapInsert acc.1 f.plugin.id f.plugin, acc.2)

/-- Model of `PluginManager.loadUserPlugins` (L135-179) on a manager
constructed with the given `verbose` option, returning the updated registry and
the conflict warnings logged. -/
def loadUserPlugins (verbose : Bool) (registry : List (String × TopixPlugin))
    (files : List PluginFile) : List (String × TopixPlugin) × List String :=
  files.foldl (loadUserStep verbose) (registry, [])

lemma mapContains_insert_self (m : List (String × TopixPlugin)) (k : String)
    (v : TopixPlugin) : mapContains (mapInsert m k v) k = true := by
  simp [mapContains, mapLookup_insert_self]

/-- Registered ids survive every `loadUserStep`, with the same implementation,
whatever the verbosity. -/
lemma loadUserStep_preserves (verbose : Bool)
    (acc : List (String × TopixPlugin) × List String)
    (f : PluginFile) (id : String) (pl : TopixPlugin)
    (h : mapLookup acc.1 id = some pl) :
    mapLookup (loadUserStep verbose acc f).1 id = some pl := by
  unfold loadUserStep
  split_ifs with hv hc hverb
  · exact h
  · exact h
  · exact h
  · have hne : f.plugin.id ≠ id := by
      intro hEq
      rw [hEq] at hc
      simp [mapContains, h] at hc
    show mapLookup (mapInsert acc.1 f.plugin.id f.plugin) id = some pl
    rw [mapLookup_insert_ne _ _ _ _ hne]
    exact h

/-- Conflict log entries survive every `loadUserStep`. -/
lemma loadUserStep_log_mono (verbose : Bool)
    (acc : List (String × TopixPlugin) × List String)
    (f : PluginFile) (w : String) (h : w ∈ acc.2) :
    w ∈ (loadUserStep verbose acc f).2 := by
  unfold loadUserStep
  split_ifs with hv hc hverb
  · exact h
  · exact List.mem_append_left _ h
  · exact h
  · exact h

/-- Conflict log entries survive the whole `loadUserPlugins` fold. -/
lemma foldl_loadUserStep_log_mono (verbose : Bool) (fs : List PluginFile)
    (acc : List (String × TopixPlugin) × List String) (w : String) (h : w ∈ acc.2) :
    w ∈ (fs.foldl (loadUserStep verbose) acc).2 := by
  induction fs generalizing acc with
  | nil => exact h
  | cons f fs ih => exact ih _ (loadUserStep_log_mono verbose acc f w h)

/-- A quiet (`verbose: false`) manager's `loadUserStep` never logs. -/
lemma loadUserStep_quiet_log (acc : List (String × TopixPlugin) × List String)
    (f : PluginFile) : (loadUserStep false acc f).2 = acc.2 := by
  unfold loadUserStep
  split_ifs with hv hc hq
  · rfl
  · simp at hq
  · rfl
  · rfl

/-- A quiet manager's whole `loadUserPlugins` fold never logs. -/
lemma foldl_loadUserStep_quiet_log (fs : List PluginFile)
    (acc : List (String × TopixPlugin) × List String) :
    (fs.foldl (loadUserStep false) acc).2 = acc.2 := by
  induction fs generalizing acc with
  | nil => rfl
  | cons f fs ih => exact (ih _).trans (loadUserStep_quiet_log acc f)

/-- A built-in plugin and a user candidate sharing its id. -/
def c10builtin : TopixPlugin :=
  { id := "weather", name := "Weather (built-in)", fetchResult := .ok [],
    retention := .unlimited }

/-- A user-extension candidate that conflicts with the built-in id. -/
def c10user : PluginFile :=
  { valid := true,
    plugin := { id := "weather", name := "Weather (user)", fetchResult := .ok [],
                retention := .unlimited } }

/-- Counterexample to C10 as stated: on a manager constructed with
`verbose: false` — as the CLI does (`new PluginManager(db, { verbose: false })`)
before calling `initialize()` — a valid user candidate conflicting with the
registered built-in is skipped with no warning at all: the registry keeps the
built-in, but the log stays empty, so discovery does not always skip "with a
warning". -/
theorem user_plugin_conflict_silent_when_quiet :
    loadUserPlugins false [("weather", c10builtin)] [c10user] =
      ([("weather", c10builtin)], []) := by decide

/-- C10 (amended): a user plugin whose id is already registered never replaces
the registered (built-in) implementation, under any verbosity; on a verbose
manager its skipping is logged with a conflict warning, while a quiet
(`verbose: false`) manager skips it silently, logging nothing. -/
theorem user_plugin_never_replaces (verbose : Bool)
    (registry : List (String × TopixPlugin))
    (files : List PluginFile) (id : String) (pl : TopixPlugin)
    (h : mapLookup registry id = some pl) :
    mapLookup (loadUserPlugins verbose registry files).1 id = some pl ∧
    (verbose = true → ∀ f ∈ files, f.valid = true → f.plugin.id = id →
      ("conflict:" ++ id) ∈ (loadUserPlugins verbose registry files).2) ∧
    (verbose = false → (loadUserPlugins verbose registry files).2 = []) := by
  refine ⟨?_, ?_, ?_⟩
  · unfold loadUserPlugins
    suffices hgen : ∀ (fs : List PluginFile)
        (acc : List (String × TopixPlugin) × List String),
        mapLookup acc.1 id = some pl →
        mapLookup (fs.foldl (loadUserStep verbose) acc).1 id = some pl by
      exact hgen files (registry, []) h
    intro fs
    induction fs with
    | nil => exact fun acc hacc => hacc
    | cons f fs ih =>
      exact fun acc hacc => ih _ (loadUserStep_preserves verbose acc f id pl hacc)
  · intro hverb
    subst hverb
    unfold loadUserPlugins
    suffices hgen : ∀ (fs : List PluginFile)
        (acc : List (String × TopixPlugin) × List String),
        mapLookup acc.1 id = some pl →
        ∀ g ∈ fs, g.valid = true → g.plugin.id = id →
          ("conflict:" ++ id) ∈ (fs.foldl (loadUserStep true) acc).2 by
      exact hgen files (registry, []) h
    intro fs
    induction fs with
    | nil =>
      intro acc _ g hg
      exact absurd hg (by simp)
    | cons f fs ih =>
      intro acc hacc g hg hv hid
      rcases List.mem_cons.mp hg with hgf | hgf
      · have hv2 : f.valid = true := by rw [← hgf]; exact hv
        have hid2 : f.plugin.id = id := by rw [← hgf]; exact hid
        have hwarn : ("conflict:" ++ id) ∈ (loadUserStep true acc f).2 := by
          unfold loadUserStep
          have hcont : mapContains acc.1 id = true := by
            simp [mapContains, hacc]
          simp [hv2, hid2, hcont]
        exact foldl_loadUserStep_log_mono true fs (loadUserStep true acc f) _ hwarn
      · exact ih (loadUserStep true acc f)
          (loadUserStep_preserves true acc f id pl hacc) g hgf hv hid
  · intro hq
    subst hq
    exact foldl_loadUserStep_quiet_log files (registry, [])

/-- Witness for `user_plugin_never_replaces`: on a verbose manager with the
built-in `weather` registered, loading a conflicting user candidate leaves the
registry mapping `weather` to the built-in implementation and logs the
conflict. -/
theorem user_plugin_never_replaces_witness :
    mapLookup [("weather", c10builtin)] "weather" = some c10builtin ∧
    mapLookup (loadUserPlugins true [("weather", c10builtin)] [c10user]).1 "weather" =
      some c10builtin ∧
    ("conflict:" ++ "weather") ∈
      (loadUserPlugins true [("weather", c10builtin)] [c10user]).2 := by
  have h := user_plugin_never_replaces true [("weather", c10builtin)] [c10user]
    "weather" c10builtin (by decide)
  exact ⟨by decide, h.1, h.2.1 rfl c10user (by decide) rfl rfl⟩

/-! ### Scheduler (`src/managers/scheduler.ts`)

The `Scheduler` class holds `tasks : Map<string, ScheduledTask>` and
`running : boolean` — and nothing else besides its `PluginManager` reference;
in particular it has no per-plugin in-flight tracking.  A `ScheduledTask` is
modelled by the cron expression it was installed with.  The node-cron
`cron.validate` predicate is external library code and enters as a
parameter. -/

structure SchedulerState where
  tasks : List (String × String)
  running : Bool
  deriving Repr, DecidableEq

/-- Model of `Scheduler.schedulePlugin` (`src/managers/scheduler.ts` L743-769):
validate the cron expression first — on failure warn and return with the task
map untouched; on success stop and delete any existing task for the plugin,
then install the new one. -/
def schedulePlugin (validate : String → Bool) (st : SchedulerState)
    (pid schedule : String) : SchedulerState × List String :=
  if validate schedule = false then
    (st, ["invalid-cron:" ++ pid])
  else
    ({ st with tasks := mapInsert (mapErase st.tasks pid) pid schedule },
     ["scheduled:" ++ pid])

/-- Model of `Scheduler.reschedulePlugin` (L800-807): return silently when the
scheduler is not running; otherwise log and delegate to `schedulePlugin`. -/
def reschedulePlugin (validate : String → Bool) (st : SchedulerState)
    (pid schedule : String) : SchedulerState × List String :=
  if st.running = false then (st, [])
  else
    let r := schedulePlugin validate st pid schedule
    (r.1, ("rescheduling:" ++ pid) :: r.2)

/-- Counterexample to C7 as stated: a `reschedulePlugin` call with an invalid
cron expression on a stopped scheduler returns without emitting any warning, so
not every such call is "rejected with a warning". -/
theorem reschedule_invalid_stopped_silent :
    reschedulePlugin (fun _ => false) { tasks := [], running := false }
      "alpha" "not-a-cron" = ({ tasks := [], running := false }, []) := rfl

/-- C7 (amended): a `reschedulePlugin` call with a cron expression that fails
validation never changes the task map — the previously installed timer, if any,
stays installed — and it logs the invalid-cron warning exactly when the
scheduler is running; on a stopped scheduler it returns silently. -/
theorem reschedule_invalid_keeps_timer (validate : String → Bool)
    (st : SchedulerState) (pid schedule : String)
    (hval : validate schedule = false) :
    (reschedulePlugin validate st pid schedule).1 = st ∧
    (st.running = true →
      ("invalid-cron:" ++ pid) ∈ (reschedulePlugin validate st pid schedule).2) ∧
    (st.running = false → (reschedulePlugin validate st pid schedule).2 = []) := by
  unfold reschedulePlugin schedulePlugin
  cases hr : st.running with
  | false => simp
  | true => simp [hval]

/-- Witness for `reschedule_invalid_keeps_timer`: a running scheduler with one
installed timer keeps it, and warns, when rescheduled with a bad expression. -/
theorem reschedule_invalid_keeps_timer_witness :
    ((fun s => decide (s = "*/5 * * * *")) "bad cron" = false) ∧
    (reschedulePlugin (fun s => decide (s = "*/5 * * * *"))
        { tasks := [("alpha", "*/5 * * * *")], running := true } "alpha" "bad cron").1 =
      { tasks := [("alpha", "*/5 * * * *")], running := true } ∧
    ("invalid-cron:" ++ "alpha") ∈
      (reschedulePlugin (fun s => decide (s = "*/5 * * * *"))
        { tasks := [("alpha", "*/5 * * * *")], running := true } "alpha" "bad cron").2 := by
  have h := reschedule_invalid_keeps_timer (fun s => decide (s = "*/5 * * * *"))
    { tasks := [("alpha", "*/5 * * * *")], running := true } "alpha" "bad cron" (by decide)
  exact ⟨by decide, h.1, h.2.1 rfl⟩

/-! ### Config watcher (`src/utils/config-watcher.ts`)

`loadConfig` and `validateConfig` live in `src/utils/config-file.ts` and are
passed in as parameters: the claim quantifies over changes that fail structural
validation, i.e. over validator outcomes.  The registered change handler (which
performs the plugin hot reload and the scheduler reschedule) is likewise a
parameter; the system it would mutate is an `OrchestratorState`. -/

/-- The `ValidationResult` shape returned by `validateConfig`. -/
structure ConfigValidation where
  valid : Bool
  errors : List String
  deriving Repr, DecidableEq

/-- The in-memory configuration document (`TopixConfig`), restricted to the
parts the orchestration reads: the per-plugin section and a preference value. -/
structure TopixConfig where
  plugins : List (String × PluginConfig)
  defaultThreshold : Int
  deriving Repr, DecidableEq

/-- Everything a config change can reach through the registered handler: the
in-memory configuration, the scheduler's installed tasks, and the in-memory
preferences. -/
structure OrchestratorState where
  config : TopixConfig
  scheduledTasks : List (String × String)
  preferences : List (String × String)
  deriving Repr, DecidableEq

/-- Model of `ConfigWatcher.processConfigChange` (`src/utils/config-watcher.ts`
L95-121): load the file (`loadConfig` may throw — the `catch` branch); validate
it; when validation fails, log every validation error and keep the existing
configuration without invoking the change handler; only on a valid document
invoke the handler. -/
def processConfigChange (load : Except String TopixConfig)
    (validate : TopixConfig → ConfigValidation)
    (handler : TopixConfig → OrchestratorState → OrchestratorState)
    (sys : OrchestratorState) : OrchestratorState × List String :=
  match load with
  | .error e => (sys, ["reload-failed:" ++ e, "keeping-existing-configuration"])
  | .ok newConfig =>
    let v := validate newConfig
    if v.valid = false then
      (sys, ["config-validation-failed"] ++ v.errors ++ ["keeping-existing-configuration"])
    else
      (handler newConfig sys, ["config-reloaded"])

/-- C6: when a loaded configuration fails structural validation, the watcher —
for every possible registered change handler — leaves the system untouched: the
in-memory configuration, the scheduled tasks and the preferences are unchanged,
and every validation error appears in the log. -/
theorem invalid_config_change_no_effect (cfg : TopixConfig)
    (validate : TopixConfig → ConfigValidation)
    (handler : TopixConfig → OrchestratorState → OrchestratorState)
    (sys : OrchestratorState)
    (hinv : (validate cfg).valid = false) :
    (processConfigChange (.ok cfg) validate handler sys).1 = sys ∧
    (processConfigChange (.ok cfg) validate handler sys).1.config = sys.config ∧
    (processConfigChange (.ok cfg) validate handler sys).1.scheduledTasks =
      sys.scheduledTasks ∧
    (processConfigChange (.ok cfg) validate handler sys).1.preferences =
      sys.preferences ∧
    ∀ err ∈ (validate cfg).errors,
      err ∈ (processConfigChange (.ok cfg) validate handler sys).2 := by
  unfold processConfigChange
  simp only [hinv, if_pos]
  refine ⟨by trivial, by trivial, by trivial, by trivial, ?_⟩
  intro err herr
  simp [herr]

/-- A validator rejecting an out-of-range threshold, as in the spec's example. -/
def c6validate (cfg : TopixConfig) : ConfigValidation :=
  if cfg.defaultThreshold < 0 ∨ 1 < cfg.defaultThreshold then
    { valid := false, errors := ["defaultThreshold out of range"] }
  else
    { valid := true, errors := [] }

/-- Witness for `invalid_config_change_no_effect`: a document with threshold 7
fails the range check, and even a handler that wipes the whole system leaves
the previous state and logs its error. -/
theorem invalid_config_change_no_effect_witness :
    ((c6validate { plugins := [], defaultThreshold := 7 }).valid = false) ∧
    (processConfigChange (.ok { plugins := [], defaultThreshold := 7 }) c6validate
      (fun _ _ => { config := { plugins := [], defaultThreshold := 0 },
                    scheduledTasks := [], preferences := [] })
      { config := { plugins := [("alpha", { pluginId := "alpha", enabled := true,
                                            schedule := "*/5 * * * *" })],
                    defaultThreshold := 0 },
        scheduledTasks := [("alpha", "*/5 * * * *")],
        preferences := [("feedTitle", "Topix")] }).1 =
      { config := { plugins := [("alpha", { pluginId := "alpha", enabled := true,
                                            schedule := "*/5 * * * *" })],
                    defaultThreshold := 0 },
        scheduledTasks := [("alpha", "*/5 * * * *")],
        preferences := [("feedTitle", "Topix")] } ∧
    "defaultThreshold out of range" ∈
      (processConfigChange (.ok { plugins := [], defaultThreshold := 7 }) c6validate
        (fun _ _ => { config := { plugins := [], defaultThreshold := 0 },
                      scheduledTasks := [], preferences := [] })
        { config := { plugins := [("alpha", { pluginId := "alpha", enabled := true,
                                              schedule := "*/5 * * * *" })],
                      defaultThreshold := 0 },
          scheduledTasks := [("alpha", "*/5 * * * *")],
          preferences := [("feedTitle", "Topix")] }).2 := by
  have h := invalid_config_change_no_effect { plugins := [], defaultThreshold := 7 }
    c6validate
    (fun _ _ => { config := { plugins := [], defaultThreshold := 0 },
                  scheduledTasks := [], preferences := [] })
    { config := { plugins := [("alpha", { pluginId := "alpha", enabled := true,
                                          schedule := "*/5 * * * *" })],
                  defaultThreshold := 0 },
      scheduledTasks := [("alpha", "*/5 * * * *")],
      preferences := [("feedTitle", "Topix")] }
    (by decide)
  exact ⟨by decide, h.1, h.2.2.2.2 "defaultThreshold out of range" (by decide)⟩

/-! ### OAuth2 refresh and validation (`src/managers/auth-manager.ts`)

The stored OAuth2 credential, as retrieved by `getCredentials`, enters as an
`Option OAuth2Creds` (`none` covers both a missing credential and a non-oauth2
one, which the source returns `null` for).  The token-endpoint round trip is
external I/O and enters as an `Option RefreshResponse` (`none` = the `fetch`
threw or `!response.ok`).  Observable actions are collected in an event
list. -/

/-- The OAuth2 fields the refresh/validate logic reads (`OAuth2Credentials` in
`src/models/types.ts`; `clientId`/`clientSecret` only feed the request body and
are omitted). -/
structure OAuth2Creds where
  accessToken : String
  refreshToken : String
  expiresAt : Option Int
  tokenUrl : Option String
  deriving Repr, DecidableEq

/-- The parsed token-endpoint response (`access_token`, optional
`refresh_token` — `none` models a falsy value, on which the source keeps the
old one — and `expires_in` seconds). -/
structure RefreshResponse where
  accessToken : String
  refreshToken : Option String
  expiresInSec : Int
  deriving Repr, DecidableEq

/-- Observable actions of the auth manager's OAuth2 path. -/
inductive AuthEvent where
  | refreshDelegated
  | warnNoRefreshToken
  | networkCall
  | storeUpdated
  deriving Repr, DecidableEq

/-- The `try` block of `refreshOAuth2Token` (L160-207): a missing `tokenUrl`
throws before any network call (caught, returning `null`); otherwise the
network call happens, and on success the updated credential (new access token,
new expiry `now + expires_in * 1000`, refresh token kept if the response lacks
one) is stored and returned. -/
def refreshNetwork (c : OAuth2Creds) (now : Int) (net : Option RefreshResponse) :
    Option OAuth2Creds × List AuthEvent :=
  match c.tokenUrl with
  | none => (none, [])
  | some _ =>
    match net with
    | none => (none, [.networkCall])
    | some resp =>
      let updated : OAuth2Creds :=
        { c with
          accessToken := resp.accessToken,
          refreshToken := match resp.refreshToken with
            | some r => r
            | none => c.refreshToken,
          expiresAt := some (now + resp.expiresInSec * 1000) }
      (some updated, [.networkCall, .storeUpdated])

/-- Model of `AuthManager.refreshOAuth2Token` (`src/managers/auth-manager.ts`
L134-210): return `null` for a missing/non-oauth2 credential; warn and return
`null` when the refresh token is empty; return the credential unchanged when
its expiry is more than five minutes away; otherwise attempt the network
refresh. -/
def refreshOAuth2Token (stored : Option OAuth2Creds) (now : Int)
    (net : Option RefreshResponse) : Option OAuth2Creds × List AuthEvent :=
  match stored with
  | none => (none, [])
  | some c =>
    if c.refreshToken = "" then (none, [.warnNoRefreshToken])
    else
      match c.expiresAt with
      | some e =>
        if 5 * 60 * 1000 < e - now then (some c, [])
        else refreshNetwork c now net
      | none => refreshNetwork c now net

/-- Model of `AuthManager.validateOAuth2Token` (L213-234): return `null` for a
missing/non-oauth2 credential; when an expiry is present and `expiresAt <= now`
— the token is already expired — delegate to `refreshOAuth2Token`; in every
other case return the credential unchanged. -/
def validateOAuth2Token (stored : Option OAuth2Creds) (now : Int)
    (net : Option RefreshResponse) : Option OAuth2Creds × List AuthEvent :=
  match stored with
  | none => (none, [])
  | some c =>
    match c.expiresAt with
    | some e =>
      if e ≤ now then
        ((refreshOAuth2Token (some c) now net).1,
         .refreshDelegated :: (refreshOAuth2Token (some c) now net).2)
      else (some c, [])
    | none => (some c, [])

/-- A refreshable credential expiring 4 minutes after time 0. -/
def c3cred4 : OAuth2Creds :=
  { accessToken := "at-old", refreshToken := "rt", expiresAt := some 240000,
    tokenUrl := some "https://example.com/token" }

/-- A token-endpoint response that would succeed if called. -/
def c3resp : RefreshResponse :=
  { accessToken := "at-new", refreshToken := some "rt2", expiresInSec := 3600 }

/-- Counterexample to C3 as stated: a credential expiring in 4 minutes does NOT
trigger a refresh through `validate` — `validateOAuth2Token` returns it
unchanged with no event at all, because the source only delegates to `refresh`
when `expiresAt <= now`; the 5-minute margin sits inside `refreshOAuth2Token`,
not in `validateOAuth2Token`. -/
theorem validate_4min_counterexample :
    validateOAuth2Token (some c3cred4) 0 (some c3resp) = (some c3cred4, []) ∧
    AuthEvent.refreshDelegated ∉ (validateOAuth2Token (some c3cred4) 0 (some c3resp)).2 := by
  exact ⟨rfl, by decide⟩

/-- C3 (amended): `validate` returns the current token unchanged whenever its
expiry is strictly in the future — so neither a credential expiring in 4
minutes nor one expiring in 10 minutes triggers a refresh through `validate` —
and delegates to `refresh` exactly when the token is already expired; the
5-minute safety margin lives in `refresh` itself, which returns the token
unchanged when more than 5 minutes remain. -/
theorem validate_margin_behavior (c : OAuth2Creds) (now : Int)
    (net : Option RefreshResponse) (e : Int) (hexp : c.expiresAt = some e) :
    (now < e → validateOAuth2Token (some c) now net = (some c, [])) ∧
    (e ≤ now → validateOAuth2Token (some c) now net =
      ((refreshOAuth2Token (some c) now net).1,
       .refreshDelegated :: (refreshOAuth2Token (some c) now net).2)) ∧
    (c.refreshToken ≠ "" → 5 * 60 * 1000 < e - now →
      refreshOAuth2Token (some c) now net = (some c, [])) := by
  refine ⟨?_, ?_, ?_⟩
  · intro hlt
    simp only [validateOAuth2Token]
    rw [hexp]
    simp [not_le.mpr hlt]
  · intro hle
    simp only [validateOAuth2Token]
    rw [hexp]
    simp [hle]
  · intro hrt hm
    simp only [refreshOAuth2Token]
    rw [hexp]
    simp only [hrt, if_neg, if_pos hm]
    simp [hrt]

/-- A refreshable credential expiring 10 minutes after time 0. -/
def c3cred10 : OAuth2Creds :=
  { accessToken := "at", refreshToken := "rt", expiresAt := some 600000,
    tokenUrl := some "https://example.com/token" }

/-- Witness for `validate_margin_behavior`: at a credential expiring in 10
minutes, `validate` returns it unchanged with no refresh. -/
theorem validate_margin_behavior_witness :
    (c3cred10.expiresAt = some 600000 ∧ (0 : Int) < 600000) ∧
    validateOAuth2Token (some c3cred10) 0 (some c3resp) = (some c3cred10, []) :=
  ⟨⟨rfl, by decide⟩,
   (validate_margin_behavior c3cred10 0 (some c3resp) 600000 rfl).1 (by decide)⟩

/-! ### Credential vault (`src/managers/auth-manager.ts` store/get)

A credential object is its `type` discriminator plus the remaining JSON
key/value fields; `JSON.stringify`/`JSON.parse` round-trips it unchanged, so
byte-for-byte equality of stored payloads is structural equality here.  Whether
a given keytar operation throws is decided by the environment and enters as a
`Bool` per call. -/

/-- An `AuthCredentials` object: the `type` field and the remaining payload
fields (e.g. `apiKey`, or `username`/`password`). -/
structure AuthCredentials where
  typ : String
  payload : List (String × String)
  deriving Repr, DecidableEq

/-- The `AuthManager`'s mutable state: the `keychainAvailable` flag, the
keychain entries under the service namespace, and the database `auth` table
(`TopixDatabase.upsertAuth`/`getAuth` store and parse the credentials JSON). -/
structure VaultState where
  keychainAvailable : Bool
  keychain : List (String × AuthCredentials)
  dbAuth : List (String × AuthCredentials)
  deriving Repr, DecidableEq

/-- Model of `AuthManager.storeCredentials` (`src/managers/auth-manager.ts`
L39-59), with `opFails` telling whether the keychain write throws: when the
keychain is available and the write succeeds, the full credential goes to the
keychain and only the metadata record `{ type: authType }` goes to the
database; when the write throws, the manager demotes `keychainAvailable` and
falls back to storing the full credential in the database; when the keychain
was already unavailable, the full credential goes straight to the database. -/
def storeCredentials (opFails : Bool) (st : VaultState) (pid : String)
    (c : AuthCredentials) : VaultState :=
  if st.keychainAvailable = true then
    if opFails then
      { st with keychainAvailable := false, dbAuth := mapInsert st.dbAuth pid c }
    else
      { st with keychain := mapInsert st.keychain pid c,
                dbAuth := mapInsert st.dbAuth pid { typ := c.typ, payload := [] } }
  else
    { st with dbAuth := mapInsert st.dbAuth pid c }

/-- Model of `AuthManager.getCredentials` (L64-79), with `opFails` telling
whether the keychain read throws: with the keychain available, a throwing read
demotes availability and falls back to the database; a successful read returns
the keychain entry, or falls through to the database when the keychain has
none; with the keychain unavailable, read the database directly. -/
def getCredentials (opFails : Bool) (st : VaultState) (pid : String) :
    Option AuthCredentials × VaultState :=
  if st.keychainAvailable = true then
    if opFails then
      (mapLookup st.dbAuth pid, { st with keychainAvailable := false })
    else
      match mapLookup st.keychain pid with
      | some c => (some c, st)
      | none => (mapLookup st.dbAuth pid, st)
  else
    (mapLookup st.dbAuth pid, st)

/-- The credential of the counterexample scenario. -/
def c4cred : AuthCredentials := { typ := "apikey", payload := [("apiKey", "secret-key-123")] }

/-- Counterexample to C4 as stated: store `c4cred` while the primary vault is
available (the write succeeds), then get it while the primary read fails — the
fallback returns only the metadata record `{ type: "apikey" }`, which is not
byte-for-byte equal to the stored credential, because a successful primary
store persists only the auth type to the database. -/
theorem vault_fallback_counterexample :
    (getCredentials true
        (storeCredentials false { keychainAvailable := true, keychain := [], dbAuth := [] }
          "gmail" c4cred) "gmail").1 = some { typ := "apikey", payload := [] } ∧
    (getCredentials true
        (storeCredentials false { keychainAvailable := true, keychain := [], dbAuth := [] }
          "gmail" c4cred) "gmail").1 ≠ some c4cred := by decide

/-- C4 (amended): when the store itself fell back — the primary was already
unavailable, or the primary write threw — a later get with the primary failing
returns the full credential byte-for-byte from the fallback store; but a
credential stored while the primary was available and writable is recoverable
through the fallback only as its auth-type metadata record. -/
theorem vault_fallback_amended (st : VaultState) (pid : String)
    (c : AuthCredentials) (g : Bool) :
    (st.keychainAvailable = true →
      (getCredentials g (storeCredentials true st pid c) pid).1 = some c) ∧
    (st.keychainAvailable = false →
      (getCredentials g (storeCredentials false st pid c) pid).1 = some c) ∧
    (st.keychainAvailable = true →
      (getCredentials true (storeCredentials false st pid c) pid).1 =
        some { typ := c.typ, payload := [] }) := by
  refine ⟨?_, ?_, ?_⟩
  · intro hav
    simp [storeCredentials, getCredentials, hav, mapLookup_insert_self]
  · intro hav
    simp [storeCredentials, getCredentials, hav, mapLookup_insert_self]
  · intro hav
    simp [storeCredentials, getCredentials, hav, mapLookup_insert_self]

/-- Witness for `vault_fallback_amended`: a credential stored while the primary
write throws is later returned byte-for-byte from the fallback. -/
theorem vault_fallback_amended_witness :
    (({ keychainAvailable := true, keychain := [], dbAuth := [] } : VaultState).keychainAvailable
        = true) ∧
    (getCredentials true
        (storeCredentials true { keychainAvailable := true, keychain := [], dbAuth := [] }
          "cal" c4cred) "cal").1 = some c4cred :=
  ⟨rfl,
   (vault_fallback_amended { keychainAvailable := true, keychain := [], dbAuth := [] }
      "cal" c4cred true).1 rfl⟩

/-! ### Overlapping triggers (`Scheduler.executePlugin` + `fetchFromPlugin`)

`fetchFromPlugin` is an async function whose only suspension point before its
database writes is `await plugin.fetchHeadlines(context)`; while one invocation
is suspended there, the single-threaded event loop is free to run another
trigger (a cron tick firing `Scheduler.executePlugin`, or a manual fetch) for
the same plugin to completion.  Neither `Scheduler` (fields `pluginManager`,
`tasks`, `running`) nor `PluginManager` (fields `plugins`, `db`, `verbose`)
holds any per-plugin in-flight state, and no code path in
`executePlugin`/`fetchFromPlugin` consults one, so the second trigger passes
the same precondition checks and runs.  The functions below split
`fetchFromPlugin` at that suspension point and replay this schedule. -/

/-- The synchronous prefix of `fetchFromPlugin`, up to the `await
plugin.fetchHeadlines` suspension point: the registry and enabled checks. -/
def fetchPre (st : ManagerState) (pid : String) : Except FetchError TopixPlugin :=
  match mapLookup st.plugins pid with
  | none => .error (.notFound pid)
  | some plugin =>
    match mapLookup st.configs pid with
    | none => .error (.notEnabled pid)
    | some cfg =>
      if cfg.enabled = false then .error (.notEnabled pid)
      else .ok plugin

/-- The continuation of `fetchFromPlugin` after a successful
`plugin.fetchHeadlines` resolves with `hs`: insert every headline, apply the
retention policy, record the run. -/
def fetchPost (st : ManagerState) (pid : String) (plugin : TopixPlugin)
    (hs : List Headline) (now : Int) : ManagerState :=
  { st with db := enforceRetentionPolicy (st.db ++ hs) pid plugin.retention now,
            runs := st.runs ++ [⟨pid, none⟩] }

/-- Consistency of the split: an uninterrupted successful `fetchFromPlugin` is
its prefix followed by its continuation. -/
lemma fetchFromPlugin_eq_pre_post (st : ManagerState) (pid : String) (now : Int)
    (plugin : TopixPlugin) (hs : List Headline)
    (hpre : fetchPre st pid = .ok plugin) (hres : plugin.fetchResult = .ok hs) :
    fetchFromPlugin st pid now = (.ok hs, fetchPost st pid plugin hs now) := by
  unfold fetchPre at hpre
  unfold fetchFromPlugin fetchPost
  cases hpl : mapLookup st.plugins pid with
  | none => simp [hpl] at hpre
  | some plugin1 =>
    simp only [hpl] at hpre ⊢
    cases hcfg : mapLookup st.configs pid with
    | none => simp [hcfg] at hpre
    | some cfg =>
      simp only [hcfg] at hpre ⊢
      by_cases hen : cfg.enabled = false
      · simp [hen] at hpre
      · simp only [if_neg hen] at hpre ⊢
        have hpp : plugin1 = plugin := by injection hpre
        subst hpp
        simp [hres]

/-- The event-loop schedule of two triggers for the same plugin where the
second arrives while the first is suspended at `await plugin.fetchHeadlines`:
trigger 1 runs its checks and suspends; trigger 2 runs its checks — nothing in
the source consults any in-flight state — and, being uninterrupted, runs to
completion; trigger 1 then resumes its continuation.  Returns how many times
`plugin.fetchHeadlines` was invoked, the final state, and the log lines of
`Scheduler.executePlugin` (which logs a running-fetch line per trigger and has
no skip/coalesce line to emit). -/
def twoTriggerInterleaving (st : ManagerState) (pid : String) (now : Int) :
    Nat × ManagerState × List String :=
  match fetchPre st pid with
  | .error _ => (0, st, ["plugin-check-failed:" ++ pid])
  | .ok plugin1 =>
    match plugin1.fetchResult with
    | .error msg =>
      (1, { st with runs := st.runs ++ [⟨pid, some msg⟩] },
       ["running-scheduled-fetch:" ++ pid, "scheduled-fetch-failed:" ++ pid])
    | .ok hs1 =>
      match fetchPre st pid with
      | .error _ =>
        (1, fetchPost st pid plugin1 hs1 now, ["running-scheduled-fetch:" ++ pid])
      | .ok plugin2 =>
        match plugin2.fetchResult with
        | .error msg =>
          (2, fetchPost { st with runs := st.runs ++ [⟨pid, some msg⟩] }
                pid plugin1 hs1 now,
           ["running-scheduled-fetch:" ++ pid, "running-scheduled-fetch:" ++ pid,
            "scheduled-fetch-failed:" ++ pid])
        | .ok hs2 =>
          (2, fetchPost (fetchPost st pid plugin2 hs2 now) pid plugin1 hs1 now,
           ["running-scheduled-fetch:" ++ pid, "running-scheduled-fetch:" ++ pid])

/-- The plugin of the overlapping-trigger scenario: enabled, retention
`count(3)`, fetch resolving with two headlines. -/
def c1plugin : TopixPlugin :=
  { id := "alpha", name := "Alpha",
    fetchResult := .ok [⟨"a5", "alpha", "t5", 500⟩, ⟨"a6", "alpha", "t6", 600⟩],
    retention := .count 3 }

/-- The state of the overlapping-trigger scenario. -/
def c1st : ManagerState :=
  { plugins := [("alpha", c1plugin)],
    configs := [("alpha", { pluginId := "alpha", enabled := true,
                            schedule := "*/5 * * * *" })],
    db := [], runs := [] }

/-- C1 fails on the code: with plugin `alpha` enabled and a second trigger
arriving while the first fetch is awaiting `plugin.fetchHeadlines`, both
triggers execute the fetch — `plugin.fetchHeadlines` runs twice, retention is
applied twice, both headline batches are inserted — and the log carries two
running-fetch lines and no skip entry, where the claim requires exactly one
execution and a logged skip. -/
theorem overlapping_triggers_both_execute :
    (twoTriggerInterleaving c1st "alpha" 0).1 = 2 ∧
    (twoTriggerInterleaving c1st "alpha" 0).2.2 =
      ["running-scheduled-fetch:" ++ "alpha", "running-scheduled-fetch:" ++ "alpha"] ∧
    (twoTriggerInterleaving c1st "alpha" 0).2.1.db =
      [⟨"a5", "alpha", "t5", 500⟩, ⟨"a6", "alpha", "t6", 600⟩,
       ⟨"a5", "alpha", "t5", 500⟩, ⟨"a6", "alpha", "t6", 600⟩] := by decide

end Topix
